import Mathlib

/-!
Verification of the romio asynchronous network I/O layer (TCP / Unix-domain
listeners) against its natural-language specification.

The listener sources (`src/tcp/listener.rs`, `src/uds/listener.rs`) are
embedded shallowly: each `poll_*` method becomes a pure Lean function over an
explicit resource state plus oracles for the OS syscall outcomes it consumes.
The reactor internals (`PollEvented`, the driver loop) are not part of the
given sources; where a claim depends on them they are modelled from the spec
(sections 4.1, 4.2 and 5), and each such definition is marked
`Modelled from the spec:` in its doc comment.
-/

/-- Kind of an OS-level I/O error, mirroring `std::io::ErrorKind` restricted to
the kinds the listener code distinguishes: `WouldBlock` versus everything else. -/
inductive IoErrorKind : Type
  | wouldBlock
  | connectionAborted
  | permissionDenied
  | other
deriving DecidableEq, Repr

/-- An OS-level I/O error: a kind plus an opaque payload distinguishing
distinct concrete errors, mirroring `std::io::Error`. -/
structure IoError : Type where
  kind : IoErrorKind
  code : Nat
deriving DecidableEq, Repr

/-- Test from `TcpListener::poll_accept_std` / `UnixListener::poll_accept_std`:
`e.kind() == io::ErrorKind::WouldBlock`. -/
def IoError.is_would_block (e : IoError) : Bool :=
  e.kind = IoErrorKind.wouldBlock

/-- Result of polling a suspend-capable operation, mirroring `futures::Poll`. -/
inductive Poll (α : Type) : Type
  | ready (a : α)
  | pending
deriving DecidableEq, Repr

/-- An IPv4/IPv6 socket address as used by the TCP listener: host plus port. -/
structure SockAddr : Type where
  host : Nat
  port : Nat
deriving DecidableEq, Repr

/-- A Unix-domain socket address (a filesystem path, abstracted to an id). -/
structure UnixSockAddr : Type where
  pathId : Nat
deriving DecidableEq, Repr

/-- A freshly accepted std-level TCP stream (`std::net::TcpStream`),
abstracted to its file descriptor. -/
structure RawTcpStream : Type where
  fd : Nat
deriving DecidableEq, Repr

/-- A TCP stream registered with the multiplexer
(`mio::net::TcpStream`), produced by `from_stream`. -/
structure MioTcpStream : Type where
  fd : Nat
deriving DecidableEq, Repr

/-- The async `TcpStream` wrapper returned to consumers;
`TcpStream::new` wraps the mio-level stream. -/
structure TcpStream : Type where
  io : MioTcpStream
deriving DecidableEq, Repr

/-- Constructor `TcpStream::new`. -/
def TcpStream.new (io : MioTcpStream) : TcpStream := ⟨io⟩

/-- A freshly accepted std-level Unix stream (`std::os::unix::net::UnixStream`). -/
structure RawUnixStream : Type where
  fd : Nat
deriving DecidableEq, Repr

/-- A Unix stream registered with the multiplexer (`mio_uds::UnixStream`). -/
structure MioUnixStream : Type where
  fd : Nat
deriving DecidableEq, Repr

/-- The async `UnixStream` wrapper returned to consumers. -/
structure UnixStream : Type where
  io : MioUnixStream
deriving DecidableEq, Repr

/-- Constructor `UnixStream::new`. -/
def UnixStream.new (io : MioUnixStream) : UnixStream := ⟨io⟩

/-- Modelled from the spec: the state of a `reactor::PollEvented` resource
(the Readiness-Cached Resource of spec section 4.2), whose source is not under
`src/`. Per (Token, Direction) it holds a boolean readiness cache and a
resumption slot holding at most one resumption callback (a waker, abstracted
to a `Nat` identity). -/
structure Resource : Type where
  readReady : Bool
  readSlot : Option Nat
  writeReady : Bool
  writeSlot : Option Nat
deriving DecidableEq, Repr

/-- Modelled from the spec: `PollEvented::poll_read_ready` (spec section 4.2
`poll_ready`): if the cached readiness for Read says ready, return `Ready`;
otherwise store the caller's resumption callback in the Read slot, overwriting
any previous one, and return `Pending`. -/
def Resource.poll_read_ready (lw : Nat) (r : Resource) : Poll Unit × Resource :=
  if r.readReady then (Poll.ready (), r)
  else (Poll.pending, { r with readSlot := some lw })

/-- Modelled from the spec: the cache-reset effect of
`PollEvented::clear_read_ready` (spec section 4.2 `clear_ready`): the Read
readiness cache goes from ready to not-ready. The recheck-and-rearm half of
`clear_ready` is modelled separately in the interleaved transition system
below, where driver steps can come between the clear and the recheck. -/
def Resource.clear_read_ready (r : Resource) : Resource :=
  { r with readReady := false }

/-- Effects a single `poll_accept_std` call had on the outside world:
whether the non-blocking accept syscall was attempted, and whether
`clear_read_ready` was called. -/
structure AcceptEffects : Type where
  attemptedSyscall : Bool
  clearedRead : Bool
deriving DecidableEq, Repr

/-- Decidable equality on `Except`, needed so concrete listener states can be
compared by `decide` in witnesses. -/
instance (ε α : Type) [DecidableEq ε] [DecidableEq α] : DecidableEq (Except ε α) :=
  fun x y =>
    match x, y with
    | Except.error a, Except.error b =>
      if h : a = b then isTrue (by rw [h])
      else isFalse (fun hc => by cases hc; exact h rfl)
    | Except.error _, Except.ok _ => isFalse (fun hc => by cases hc)
    | Except.ok _, Except.error _ => isFalse (fun hc => by cases hc)
    | Except.ok a, Except.ok b =>
      if h : a = b then isTrue (by rw [h])
      else isFalse (fun hc => by cases hc; exact h rfl)

/-- Oracle results for the raw `mio::net::TcpListener` option-query calls the
listener passes through. -/
structure RawTcpListener : Type where
  localAddrResult : Except IoError SockAddr
  ttlResult : Except IoError Nat
  setTtlResult : Except IoError Unit
deriving DecidableEq, Repr

/-- The async `TcpListener`: the raw mio listener together with its
`PollEvented` resource state. -/
structure TcpListener : Type where
  raw : RawTcpListener
  io : Resource
deriving DecidableEq, Repr

/-- `TcpListener::local_addr`: pure pass-through to the raw resource,
`self.io.get_ref().local_addr()`; the listener state is untouched. -/
def TcpListener.local_addr (l : TcpListener) :
    Except IoError SockAddr × TcpListener :=
  (l.raw.localAddrResult, l)

/-- `TcpListener::ttl`: pure pass-through, `self.io.get_ref().ttl()`. -/
def TcpListener.ttl (l : TcpListener) : Except IoError Nat × TcpListener :=
  (l.raw.ttlResult, l)

/-- `TcpListener::set_ttl`: pure pass-through,
`self.io.get_ref().set_ttl(ttl)`; readiness state is untouched. -/
def TcpListener.set_ttl (_ttl : Nat) (l : TcpListener) :
    Except IoError Unit × TcpListener :=
  (l.raw.setTtlResult, l)

/-- `TcpListener::poll_accept_std`: `ready!(self.io.poll_read_ready(lw)?)`,
then one `accept_std` syscall (its outcome supplied as the oracle `accept`):
success returns the pair; `WouldBlock` calls `clear_read_ready` and returns
`Pending`; any other error is returned as `Ready(Err)`. The triple carries the
result, the updated resource state, and the observable effects. -/
def TcpListener.poll_accept_std (lw : Nat) (r : Resource)
    (accept : Except IoError (RawTcpStream × SockAddr)) :
    Poll (Except IoError (RawTcpStream × SockAddr)) × Resource × AcceptEffects :=
  match r.poll_read_ready lw with
  | (Poll.pending, r₁) => (Poll.pending, r₁, ⟨false, false⟩)
  | (Poll.ready _, r₁) =>
    match accept with
    | Except.ok pair => (Poll.ready (Except.ok pair), r₁, ⟨true, false⟩)
    | Except.error e =>
      if e.is_would_block then
        (Poll.pending, r₁.clear_read_ready, ⟨true, true⟩)
      else
        (Poll.ready (Except.error e), r₁, ⟨true, false⟩)

/-- `TcpListener::poll_accept`: runs `poll_accept_std`, then converts the
std-level stream with `mio::net::TcpStream::from_stream` (outcome supplied as
the oracle `fromStream`; its `?` turns a conversion error into `Ready(Err)`)
and wraps it with `TcpStream::new`. -/
def TcpListener.poll_accept (lw : Nat) (r : Resource)
    (accept : Except IoError (RawTcpStream × SockAddr))
    (fromStream : RawTcpStream → Except IoError MioTcpStream) :
    Poll (Except IoError (TcpStream × SockAddr)) × Resource × AcceptEffects :=
  match TcpListener.poll_accept_std lw r accept with
  | (Poll.pending, r₁, eff) => (Poll.pending, r₁, eff)
  | (Poll.ready (Except.error e), r₁, eff) =>
    (Poll.ready (Except.error e), r₁, eff)
  | (Poll.ready (Except.ok (s, a)), r₁, eff) =>
    match fromStream s with
    | Except.error e => (Poll.ready (Except.error e), r₁, eff)
    | Except.ok ms => (Poll.ready (Except.ok (TcpStream.new ms, a)), r₁, eff)

/-- `impl Stream for TcpListener :: poll_next`:
`let (socket, _) = ready!(self.poll_accept(lw)?); Poll::Ready(Some(Ok(socket)))`.
An accept error propagates through `?` as `Ready(Some(Err(e)))`; the peer
address is discarded by the `(socket, _)` pattern. -/
def TcpListener.poll_next (lw : Nat) (r : Resource)
    (accept : Except IoError (RawTcpStream × SockAddr))
    (fromStream : RawTcpStream → Except IoError MioTcpStream) :
    Poll (Option (Except IoError TcpStream)) × Resource × AcceptEffects :=
  match TcpListener.poll_accept lw r accept fromStream with
  | (Poll.pending, r₁, eff) => (Poll.pending, r₁, eff)
  | (Poll.ready (Except.error e), r₁, eff) =>
    (Poll.ready (some (Except.error e)), r₁, eff)
  | (Poll.ready (Except.ok (socket, _)), r₁, eff) =>
    (Poll.ready (some (Except.ok socket)), r₁, eff)

/-- Oracle results for the raw `mio_uds::UnixListener` option-query calls the
listener passes through. -/
structure RawUnixListener : Type where
  localAddrResult : Except IoError UnixSockAddr
  takeErrorResult : Except IoError (Option IoError)
deriving DecidableEq, Repr

/-- The async `UnixListener`: the raw mio-uds listener together with its
`PollEvented` resource state. -/
structure UnixListener : Type where
  raw : RawUnixListener
  io : Resource
deriving DecidableEq, Repr

/-- `UnixListener::local_addr`: pure pass-through,
`self.io.get_ref().local_addr()`. -/
def UnixListener.local_addr (l : UnixListener) :
    Except IoError UnixSockAddr × UnixListener :=
  (l.raw.localAddrResult, l)

/-- `UnixListener::take_error`: pure pass-through,
`self.io.get_ref().take_error()`. -/
def UnixListener.take_error (l : UnixListener) :
    Except IoError (Option IoError) × UnixListener :=
  (l.raw.takeErrorResult, l)

/-- `UnixListener::poll_accept_std`: readiness check, then one `accept_std`
syscall whose mio-uds signature is `io::Result<Option<(stream, addr)>>`:
`Ok(Some(pair))` returns the pair; `Ok(None)` and `Err(WouldBlock)` both call
`clear_read_ready` and return `Pending`; any other error is `Ready(Err)`. -/
def UnixListener.poll_accept_std (lw : Nat) (r : Resource)
    (accept : Except IoError (Option (RawUnixStream × UnixSockAddr))) :
    Poll (Except IoError (RawUnixStream × UnixSockAddr)) × Resource × AcceptEffects :=
  match r.poll_read_ready lw with
  | (Poll.pending, r₁) => (Poll.pending, r₁, ⟨false, false⟩)
  | (Poll.ready _, r₁) =>
    match accept with
    | Except.ok (some pair) => (Poll.ready (Except.ok pair), r₁, ⟨true, false⟩)
    | Except.ok none => (Poll.pending, r₁.clear_read_ready, ⟨true, true⟩)
    | Except.error e =>
      if e.is_would_block then
        (Poll.pending, r₁.clear_read_ready, ⟨true, true⟩)
      else
        (Poll.ready (Except.error e), r₁, ⟨true, false⟩)

/-- `UnixListener::poll_accept`: runs `poll_accept_std`, converts the stream
with `mio_uds::UnixStream::from_stream` and wraps it with `UnixStream::new`. -/
def UnixListener.poll_accept (lw : Nat) (r : Resource)
    (accept : Except IoError (Option (RawUnixStream × UnixSockAddr)))
    (fromStream : RawUnixStream → Except IoError MioUnixStream) :
    Poll (Except IoError (UnixStream × UnixSockAddr)) × Resource × AcceptEffects :=
  match UnixListener.poll_accept_std lw r accept with
  | (Poll.pending, r₁, eff) => (Poll.pending, r₁, eff)
  | (Poll.ready (Except.error e), r₁, eff) =>
    (Poll.ready (Except.error e), r₁, eff)
  | (Poll.ready (Except.ok (s, a)), r₁, eff) =>
    match fromStream s with
    | Except.error e => (Poll.ready (Except.error e), r₁, eff)
    | Except.ok ms => (Poll.ready (Except.ok (UnixStream.new ms, a)), r₁, eff)

/-- `impl Stream for UnixListener :: poll_next`:
`let (socket, _) = ready!(self.poll_accept(lw)?); Poll::Ready(Some(Ok(socket)))`;
the peer address is discarded by the `(socket, _)` pattern. -/
def UnixListener.poll_next (lw : Nat) (r : Resource)
    (accept : Except IoError (Option (RawUnixStream × UnixSockAddr)))
    (fromStream : RawUnixStream → Except IoError MioUnixStream) :
    Poll (Option (Except IoError UnixStream)) × Resource × AcceptEffects :=
  match UnixListener.poll_accept lw r accept fromStream with
  | (Poll.pending, r₁, eff) => (Poll.pending, r₁, eff)
  | (Poll.ready (Except.error e), r₁, eff) =>
    (Poll.ready (some (Except.error e)), r₁, eff)
  | (Poll.ready (Except.ok (socket, _)), r₁, eff) =>
    (Poll.ready (some (Except.ok socket)), r₁, eff)

/-- Modelled from the spec: `PollEvented::new` (used by `TcpListener::new` and
`UnixListener::bind`): fresh resource state with empty resumption slots;
initial readiness is assumed ready and must be proven by the first attempt
(spec section 3, Lifecycle). -/
def Resource.new : Resource :=
  { readReady := true, readSlot := none, writeReady := true, writeSlot := none }

/-- Modelled from the spec: `mio::net::TcpListener::bind`, an OS call outside
this repository. Binding with a port number of 0 requests that the OS assign a
port: the OS picks some concrete listening port (`osPick.succ`, never zero);
binding to a nonzero port keeps it. `osFail` is the oracle for OS-level bind
failure. The bound address is then queryable through `local_addr`. -/
def mio_tcp_bind (addr : SockAddr) (osPick : Nat) (osFail : Option IoError) :
    Except IoError RawTcpListener :=
  match osFail with
  | some e => Except.error e
  | none =>
    let bound : SockAddr :=
      if addr.port = 0 then { addr with port := osPick + 1 } else addr
    Except.ok
      { localAddrResult := Except.ok bound
        ttlResult := Except.ok 64
        setTtlResult := Except.ok () }

/-- `TcpListener::bind`: `mio::net::TcpListener::bind(addr)?` followed by
`TcpListener::new`, which wraps the raw listener in a fresh `PollEvented`. -/
def TcpListener.bind (addr : SockAddr) (osPick : Nat) (osFail : Option IoError) :
    Except IoError TcpListener :=
  match mio_tcp_bind addr osPick osFail with
  | Except.error e => Except.error e
  | Except.ok raw => Except.ok { raw := raw, io := Resource.new }

/-- Modelled from the spec: program counter of one task running the generic
suspend-capable accept pattern of spec section 4.2 over the Read direction.
`cleared` is the point inside `clear_ready` after the cache reset and before
the recheck, where a driver event may interleave. -/
inductive TaskPc : Type
  | tryAccept
  | cleared
  | suspended (w : Nat)
  | finished (r : Except IoError Nat)
deriving DecidableEq, Repr

/-- Modelled from the spec: the shared reactor state for one (Token, Read)
channel, as seen by both the task and the Reactor Driver (spec sections 3
and 4.1): the readiness cache, the resumption slot, the list of resumption
callbacks invoked so far (in invocation order), and the queue of readiness
events reported by the multiplexer that the driver has not yet processed. -/
structure Sys : Type where
  ready : Bool
  slot : Option Nat
  wakes : List Nat
  osQueue : Nat
deriving DecidableEq, Repr

/-- Modelled from the spec: one `run_once` delivery by the Reactor Driver
(spec section 4.1): if an event is queued, consume it, set the readiness
cache to ready, then atomically take the resumption slot and, if it held a
callback, invoke it (append to `wakes`). With no queued event the driver
changes nothing. -/
def driverStep (s : Sys) : Sys :=
  match s.osQueue with
  | 0 => s
  | q + 1 =>
    match s.slot with
    | some w => { ready := true, slot := none, wakes := s.wakes ++ [w], osQueue := q }
    | none => { s with ready := true, osQueue := q }

/-- Iterated driver deliveries. -/
def driverRun : Nat → Sys → Sys
  | 0, s => s
  | n + 1, s => driverRun n (driverStep s)

/-- Modelled from the spec: one step of the task running the accept pattern
(spec section 4.2, steps 1-4), with the syscall outcome of the current
attempt supplied by the oracle `accept`. At `tryAccept` the readiness cache
is consulted (`poll_ready`): not-ready stores the callback and suspends;
ready attempts the syscall, whose would-block outcome clears the cache and
moves to `cleared`. At `cleared` the recheck of `clear_ready` runs: if the
cache became ready again (an event arrived in the gap) the attempt is
retried immediately, otherwise the callback is stored and the task
suspends. At `suspended` the task resumes (back to `tryAccept`) only once
its callback has been invoked. -/
def taskStep (lw : Nat) (accept : Except IoError Nat) :
    TaskPc × Sys → TaskPc × Sys
  | (TaskPc.tryAccept, s) =>
    if s.ready then
      match accept with
      | Except.ok fd => (TaskPc.finished (Except.ok fd), s)
      | Except.error e =>
        if e.is_would_block then (TaskPc.cleared, { s with ready := false })
        else (TaskPc.finished (Except.error e), s)
    else (TaskPc.suspended lw, { s with slot := some lw })
  | (TaskPc.cleared, s) =>
    if s.ready then (TaskPc.tryAccept, s)
    else (TaskPc.suspended lw, { s with slot := some lw })
  | (TaskPc.suspended w, s) =>
    if w ∈ s.wakes then (TaskPc.tryAccept, s) else (TaskPc.suspended w, s)
  | (TaskPc.finished r, s) => (TaskPc.finished r, s)

/-- Once the resumption slot is empty, a driver delivery invokes nothing and
leaves the slot empty: only the task refills the slot. -/
theorem driverStep_of_slot_none (s : Sys) (h : s.slot = none) :
    (driverStep s).slot = none ∧ (driverStep s).wakes = s.wakes := by
  cases hq : s.osQueue with
  | zero => simpa [driverStep, hq] using h
  | succ q => simp [driverStep, hq, h]

/-- Iterated form of `driverStep_of_slot_none`: with an empty slot, any number
of further driver deliveries invoke no resumption at all. -/
theorem driverRun_of_slot_none (n : Nat) (s : Sys) (h : s.slot = none) :
    (driverRun n s).slot = none ∧ (driverRun n s).wakes = s.wakes := by
  induction n generalizing s with
  | zero => exact ⟨h, rfl⟩
  | succ n ih =>
    have hs := driverStep_of_slot_none s h
    have hr := ih (driverStep s) hs.1
    exact ⟨hr.1, by rw [show driverRun (n + 1) s = driverRun n (driverStep s) from rfl,
      hr.2, hs.2]⟩

/-- C1: a suspend (the task finds the readiness cache not ready and stores its
resumption callback) followed eventually by a real readiness event receives
exactly one resumption: over any positive number of driver deliveries, the
stored callback is invoked exactly once — never zero times (no missed wakeup)
and never twice (no duplicate wakeup). -/
theorem suspend_receives_exactly_one_resumption
    (s0 : Sys) (lw n : Nat) (accept : Except IoError Nat)
    (hready : s0.ready = false) (hfresh : lw ∉ s0.wakes) (hq : s0.osQueue ≠ 0) :
    (taskStep lw accept (TaskPc.tryAccept, s0)).1 = TaskPc.suspended lw ∧
    List.count lw (driverRun (n + 1) (taskStep lw accept (TaskPc.tryAccept, s0)).2).wakes = 1 ∧
    (driverRun (n + 1) (taskStep lw accept (TaskPc.tryAccept, s0)).2).slot = none := by
  have hstep : taskStep lw accept (TaskPc.tryAccept, s0) =
      (TaskPc.suspended lw, { s0 with slot := some lw }) := by
    simp [taskStep, hready]
  rw [hstep]
  obtain ⟨q, hq'⟩ : ∃ q, s0.osQueue = q + 1 := ⟨s0.osQueue - 1, by omega⟩
  have hds : driverStep { s0 with slot := some lw } =
      { ready := true, slot := none, wakes := s0.wakes ++ [lw], osQueue := q } := by
    simp [driverStep, hq']
  have hrun : driverRun (n + 1) { s0 with slot := some lw } =
      driverRun n { ready := true, slot := none, wakes := s0.wakes ++ [lw], osQueue := q } := by
    rw [show driverRun (n + 1) { s0 with slot := some lw } =
      driverRun n (driverStep { s0 with slot := some lw }) from rfl, hds]
  have hrest := driverRun_of_slot_none n
    { ready := true, slot := none, wakes := s0.wakes ++ [lw], osQueue := q } rfl
  refine ⟨rfl, ?_, ?_⟩
  · rw [hrun, hrest.2]
    simp [List.count_append, List.count_eq_zero.mpr hfresh]
  · rw [hrun]; exact hrest.1

/-- Witness for C1 at a concrete suspend: callback 0, one queued event. -/
theorem suspend_receives_exactly_one_resumption_witness :
    List.count 0 (driverRun 1 (taskStep 0 (Except.ok 5)
      (TaskPc.tryAccept, ⟨false, none, [], 1⟩)).2).wakes = 1 :=
  (suspend_receives_exactly_one_resumption ⟨false, none, [], 1⟩ 0 0 (Except.ok 5)
    rfl (by decide) (by decide)).2.1

/-- C2: on a would-block accept the operation first clears the readiness cache
(storing nothing yet), then rechecks: if the cache became ready again (an
event arrived in the gap) the syscall attempt is retried immediately instead
of suspending, and only otherwise does the task store its callback and
suspend. At the listener level (`TcpListener::poll_accept_std`,
`UnixListener::poll_accept_std`) the would-block branch calls
`clear_read_ready` and returns `Pending`. -/
theorem would_block_clears_then_rechecks_before_suspending
    (lw : Nat) (s : Sys) (e : IoError) (accept : Except IoError Nat)
    (hready : s.ready = true) (hwb : e.is_would_block = true) :
    taskStep lw (Except.error e) (TaskPc.tryAccept, s) =
      (TaskPc.cleared, { s with ready := false }) ∧
    (∀ t : Sys, t.ready = true →
      taskStep lw accept (TaskPc.cleared, t) = (TaskPc.tryAccept, t)) ∧
    (∀ t : Sys, t.ready = false →
      taskStep lw accept (TaskPc.cleared, t) =
        (TaskPc.suspended lw, { t with slot := some lw })) ∧
    (∀ r : Resource, r.readReady = true →
      TcpListener.poll_accept_std lw r (Except.error e) =
        (Poll.pending, r.clear_read_ready, ⟨true, true⟩)) ∧
    (∀ r : Resource, r.readReady = true →
      UnixListener.poll_accept_std lw r (Except.error e) =
        (Poll.pending, r.clear_read_ready, ⟨true, true⟩)) := by
  refine ⟨?_, ?_, ?_, ?_, ?_⟩
  · simp [taskStep, hready, hwb]
  · intro t ht; simp [taskStep, ht]
  · intro t ht; simp [taskStep, ht]
  · intro r hr
    simp [TcpListener.poll_accept_std, Resource.poll_read_ready, hr, hwb]
  · intro r hr
    simp [UnixListener.poll_accept_std, Resource.poll_read_ready, hr, hwb]

/-- Witness for C2: a would-block attempt on a ready cache moves to the
cleared state with the cache reset. -/
theorem would_block_clears_then_rechecks_before_suspending_witness :
    taskStep 0 (Except.error ⟨IoErrorKind.wouldBlock, 0⟩)
      (TaskPc.tryAccept, ⟨true, none, [], 0⟩) =
      (TaskPc.cleared, ⟨false, none, [], 0⟩) :=
  (would_block_clears_then_rechecks_before_suspending 0 ⟨true, none, [], 0⟩
    ⟨IoErrorKind.wouldBlock, 0⟩ (Except.ok 5) rfl rfl).1

/-- The TCP listener's stream never produces the end-of-stream marker: every
outcome of `poll_next` is `Pending` or `Ready(Some(..))`, never `Ready(None)`. -/
theorem TcpListener.poll_next_ne_none (lw : Nat) (r : Resource)
    (accept : Except IoError (RawTcpStream × SockAddr))
    (fromStream : RawTcpStream → Except IoError MioTcpStream) :
    (TcpListener.poll_next lw r accept fromStream).1 ≠ Poll.ready none := by
  rcases hpa : TcpListener.poll_accept lw r accept fromStream with ⟨p, r₁, eff⟩
  cases p with
  | pending => simp [TcpListener.poll_next, hpa]
  | ready x =>
    cases x with
    | error e => simp [TcpListener.poll_next, hpa]
    | ok pair => rcases pair with ⟨s, a⟩; simp [TcpListener.poll_next, hpa]

/-- C3: a non-would-block OS error from the accept syscall is returned as the
failure of this single operation — `poll_next` yields `Ready(Some(Err(e)))`
with the listener's resource state unchanged and no retry — and an error never
terminates the sequence: `poll_next` never yields `Ready(None)`, so a
subsequent poll of the same listener with a successful accept still yields a
connection. -/
theorem accept_error_is_single_element_not_termination
    (lw : Nat) (r : Resource) (e : IoError)
    (fromStream : RawTcpStream → Except IoError MioTcpStream)
    (hready : r.readReady = true) (hnwb : e.is_would_block = false) :
    TcpListener.poll_next lw r (Except.error e) fromStream =
      (Poll.ready (some (Except.error e)), r, ⟨true, false⟩) ∧
    (∀ (lw' : Nat) (r' : Resource)
       (accept : Except IoError (RawTcpStream × SockAddr))
       (fs : RawTcpStream → Except IoError MioTcpStream),
      (TcpListener.poll_next lw' r' accept fs).1 ≠ Poll.ready none) ∧
    (∀ (s : RawTcpStream) (a : SockAddr) (ms : MioTcpStream)
       (fs : RawTcpStream → Except IoError MioTcpStream), fs s = Except.ok ms →
      TcpListener.poll_next lw r (Except.ok (s, a)) fs =
        (Poll.ready (some (Except.ok (TcpStream.new ms))), r, ⟨true, false⟩)) := by
  refine ⟨?_, fun lw' r' accept fs => TcpListener.poll_next_ne_none lw' r' accept fs, ?_⟩
  · simp [TcpListener.poll_next, TcpListener.poll_accept, TcpListener.poll_accept_std,
      Resource.poll_read_ready, hready, hnwb]
  · intro s a ms fs hfs
    simp [TcpListener.poll_next, TcpListener.poll_accept, TcpListener.poll_accept_std,
      Resource.poll_read_ready, hready, hfs]

/-- Witness for C3: a concrete `ConnectionAborted`-style error surfaces as one
`Some(Err)` element of the sequence, leaving the resource untouched. -/
theorem accept_error_is_single_element_not_termination_witness :
    TcpListener.poll_next 0 Resource.new
      (Except.error ⟨IoErrorKind.connectionAborted, 3⟩)
      (fun s => Except.ok ⟨s.fd⟩) =
      (Poll.ready (some (Except.error ⟨IoErrorKind.connectionAborted, 3⟩)),
        Resource.new, ⟨true, false⟩) :=
  (accept_error_is_single_element_not_termination 0 Resource.new
    ⟨IoErrorKind.connectionAborted, 3⟩ (fun s => Except.ok ⟨s.fd⟩) rfl rfl).1

/-- Counterexample for C4: two accepts that differ only in the peer address
produce identical `poll_next` elements, and the element is the bare stream —
the peer address is not part of what the sequence delivers to its consumer. -/
theorem peer_addr_not_in_stream_element :
    TcpListener.poll_next 0 Resource.new (Except.ok (⟨5⟩, ⟨7, 1000⟩))
        (fun s => Except.ok ⟨s.fd⟩) =
      TcpListener.poll_next 0 Resource.new (Except.ok (⟨5⟩, ⟨8, 2000⟩))
        (fun s => Except.ok ⟨s.fd⟩) ∧
    (⟨7, 1000⟩ : SockAddr) ≠ (⟨8, 2000⟩ : SockAddr) ∧
    (TcpListener.poll_next 0 Resource.new (Except.ok (⟨5⟩, ⟨7, 1000⟩))
        (fun s => Except.ok ⟨s.fd⟩)).1 =
      Poll.ready (some (Except.ok (TcpStream.new ⟨5⟩))) := by
  refine ⟨?_, by decide, ?_⟩ <;>
    simp [TcpListener.poll_next, TcpListener.poll_accept, TcpListener.poll_accept_std,
      Resource.poll_read_ready, Resource.new]

/-- C4 (amended): the internal `poll_accept` does pair the new stream with its
peer address, but the `Stream` implementations' `poll_next` discard the
address and deliver only the stream to the consumer of the sequence, for both
the TCP and the Unix-domain listener. -/
theorem successful_element_is_stream_without_peer_addr
    (lw : Nat) (r : Resource) (s : RawTcpStream) (a : SockAddr)
    (ms : MioTcpStream) (fs : RawTcpStream → Except IoError MioTcpStream)
    (us : RawUnixStream) (ua : UnixSockAddr) (ums : MioUnixStream)
    (ufs : RawUnixStream → Except IoError MioUnixStream)
    (hready : r.readReady = true)
    (hfs : fs s = Except.ok ms) (hufs : ufs us = Except.ok ums) :
    TcpListener.poll_accept lw r (Except.ok (s, a)) fs =
      (Poll.ready (Except.ok (TcpStream.new ms, a)), r, ⟨true, false⟩) ∧
    TcpListener.poll_next lw r (Except.ok (s, a)) fs =
      (Poll.ready (some (Except.ok (TcpStream.new ms))), r, ⟨true, false⟩) ∧
    UnixListener.poll_accept lw r (Except.ok (some (us, ua))) ufs =
      (Poll.ready (Except.ok (UnixStream.new ums, ua)), r, ⟨true, false⟩) ∧
    UnixListener.poll_next lw r (Except.ok (some (us, ua))) ufs =
      (Poll.ready (some (Except.ok (UnixStream.new ums))), r, ⟨true, false⟩) := by
  refine ⟨?_, ?_, ?_, ?_⟩ <;>
    simp [TcpListener.poll_next, TcpListener.poll_accept, TcpListener.poll_accept_std,
      UnixListener.poll_next, UnixListener.poll_accept, UnixListener.poll_accept_std,
      Resource.poll_read_ready, hready, hfs, hufs]

/-- Witness for the amended C4 at concrete inputs. -/
theorem successful_element_is_stream_without_peer_addr_witness :
    TcpListener.poll_next 1 Resource.new (Except.ok (⟨9⟩, ⟨1, 80⟩))
        (fun s => Except.ok ⟨s.fd⟩) =
      (Poll.ready (some (Except.ok (TcpStream.new ⟨9⟩))), Resource.new,
        ⟨true, false⟩) :=
  (successful_element_is_stream_without_peer_addr 1 Resource.new ⟨9⟩ ⟨1, 80⟩
    ⟨9⟩ (fun s => Except.ok ⟨s.fd⟩) ⟨4⟩ ⟨2⟩ ⟨4⟩ (fun s => Except.ok ⟨s.fd⟩)
    rfl rfl rfl).2.1

/-- C5: `clear_read_ready` is invoked exactly in the branches where the accept
attempt reported no connection available — `WouldBlock` for TCP, and
`Ok(None)` or `WouldBlock` for UDS — never after a successful accept, a
genuine OS error, or when the readiness check already said pending; and
whenever it is invoked, the readiness cache is reset to not-ready and the
operation returns `Pending`. -/
theorem clear_ready_only_after_failed_attempt (lw : Nat) (r : Resource)
    (ta : Except IoError (RawTcpStream × SockAddr))
    (ua : Except IoError (Option (RawUnixStream × UnixSockAddr))) :
    ((TcpListener.poll_accept_std lw r ta).2.2.clearedRead = true ↔
      r.readReady = true ∧
        ∃ e, ta = Except.error e ∧ e.is_would_block = true) ∧
    ((TcpListener.poll_accept_std lw r ta).2.2.clearedRead = true →
      (TcpListener.poll_accept_std lw r ta).2.1.readReady = false ∧
      (TcpListener.poll_accept_std lw r ta).1 = Poll.pending) ∧
    ((UnixListener.poll_accept_std lw r ua).2.2.clearedRead = true ↔
      r.readReady = true ∧
        (ua = Except.ok none ∨
          ∃ e, ua = Except.error e ∧ e.is_would_block = true)) ∧
    ((UnixListener.poll_accept_std lw r ua).2.2.clearedRead = true →
      (UnixListener.poll_accept_std lw r ua).2.1.readReady = false ∧
      (UnixListener.poll_accept_std lw r ua).1 = Poll.pending) := by
  cases hr : r.readReady with
  | false =>
    refine ⟨?_, ?_, ?_, ?_⟩ <;>
      simp [TcpListener.poll_accept_std, UnixListener.poll_accept_std,
        Resource.poll_read_ready, hr]
  | true =>
    refine ⟨?_, ?_, ?_, ?_⟩
    · cases ta with
      | ok pair =>
        simp [TcpListener.poll_accept_std, Resource.poll_read_ready, hr]
      | error e =>
        cases hwb : e.is_would_block with
        | true =>
          simp [TcpListener.poll_accept_std, Resource.poll_read_ready, hr, hwb]
        | false =>
          simp [TcpListener.poll_accept_std, Resource.poll_read_ready, hr, hwb]
    · cases ta with
      | ok pair =>
        simp [TcpListener.poll_accept_std, Resource.poll_read_ready, hr]
      | error e =>
        cases hwb : e.is_would_block with
        | true =>
          simp [TcpListener.poll_accept_std, Resource.poll_read_ready,
            Resource.clear_read_ready, hr, hwb]
        | false =>
          simp [TcpListener.poll_accept_std, Resource.poll_read_ready, hr, hwb]
    · cases ua with
      | ok o =>
        cases o with
        | none =>
          simp [UnixListener.poll_accept_std, Resource.poll_read_ready, hr]
        | some pair =>
          simp [UnixListener.poll_accept_std, Resource.poll_read_ready, hr]
      | error e =>
        cases hwb : e.is_would_block with
        | true =>
          simp [UnixListener.poll_accept_std, Resource.poll_read_ready, hr, hwb]
        | false =>
          simp [UnixListener.poll_accept_std, Resource.poll_read_ready, hr, hwb]
    · cases ua with
      | ok o =>
        cases o with
        | none =>
          simp [UnixListener.poll_accept_std, Resource.poll_read_ready,
            Resource.clear_read_ready, hr]
        | some pair =>
          simp [UnixListener.poll_accept_std, Resource.poll_read_ready, hr]
      | error e =>
        cases hwb : e.is_would_block with
        | true =>
          simp [UnixListener.poll_accept_std, Resource.poll_read_ready,
            Resource.clear_read_ready, hr, hwb]
        | false =>
          simp [UnixListener.poll_accept_std, Resource.poll_read_ready, hr, hwb]

/-- C6: each option-query accessor (`local_addr`, `ttl`, `set_ttl` on the TCP
listener; `local_addr`, `take_error` on the UDS listener) returns exactly the
raw resource's result and leaves the whole listener — in particular the
readiness cache and both resumption slots of its `PollEvented` resource —
unchanged. -/
theorem accessors_pure_pass_through (l : TcpListener) (u : UnixListener) (v : Nat) :
    TcpListener.local_addr l = (l.raw.localAddrResult, l) ∧
    TcpListener.ttl l = (l.raw.ttlResult, l) ∧
    TcpListener.set_ttl v l = (l.raw.setTtlResult, l) ∧
    (TcpListener.local_addr l).2.io = l.io ∧
    (TcpListener.ttl l).2.io = l.io ∧
    (TcpListener.set_ttl v l).2.io = l.io ∧
    UnixListener.local_addr u = (u.raw.localAddrResult, u) ∧
    UnixListener.take_error u = (u.raw.takeErrorResult, u) ∧
    (UnixListener.local_addr u).2.io = u.io ∧
    (UnixListener.take_error u).2.io = u.io :=
  ⟨rfl, rfl, rfl, rfl, rfl, rfl, rfl, rfl, rfl, rfl⟩

/-- C7: a successful `TcpListener::bind` with a port-0 address has the OS
assign a port, and `local_addr` on the bound listener returns a concrete
address whose port is non-zero. -/
theorem bind_port_zero_yields_nonzero_port (addr : SockAddr) (osPick : Nat)
    (osFail : Option IoError) (l : TcpListener)
    (hport : addr.port = 0)
    (hbind : TcpListener.bind addr osPick osFail = Except.ok l) :
    ∃ a : SockAddr, (TcpListener.local_addr l).1 = Except.ok a ∧ a.port ≠ 0 := by
  cases osFail with
  | some e => simp [TcpListener.bind, mio_tcp_bind] at hbind
  | none =>
    have hbind' :
        ({ raw :=
            { localAddrResult := Except.ok { addr with port := osPick + 1 }
              ttlResult := Except.ok 64
              setTtlResult := Except.ok () }
           io := Resource.new } : TcpListener) = l := by
      simpa [TcpListener.bind, mio_tcp_bind, hport] using hbind
    subst hbind'
    exact ⟨{ addr with port := osPick + 1 }, rfl, by simp⟩

/-- Witness for C7: binding `0.0.0.0:0` with OS pick 7 yields port 8. -/
theorem bind_port_zero_yields_nonzero_port_witness :
    ∃ a : SockAddr,
      (TcpListener.local_addr
        ⟨⟨Except.ok ⟨0, 8⟩, Except.ok 64, Except.ok ()⟩, Resource.new⟩).1 =
        Except.ok a ∧ a.port ≠ 0 :=
  bind_port_zero_yields_nonzero_port ⟨0, 0⟩ 7 none
    ⟨⟨Except.ok ⟨0, 8⟩, Except.ok 64, Except.ok ()⟩, Resource.new⟩ rfl rfl

/-- C8: the accept syscall is attempted exactly when the readiness check
reported ready in the same call; when the check reports pending, both
listeners return `Pending` immediately, storing the callback and making no
accept attempt. -/
theorem syscall_attempted_only_when_ready (lw : Nat) (r : Resource)
    (ta : Except IoError (RawTcpStream × SockAddr))
    (ua : Except IoError (Option (RawUnixStream × UnixSockAddr)))
    (hnot : r.readReady = false) :
    TcpListener.poll_accept_std lw r ta =
      (Poll.pending, { r with readSlot := some lw }, ⟨false, false⟩) ∧
    UnixListener.poll_accept_std lw r ua =
      (Poll.pending, { r with readSlot := some lw }, ⟨false, false⟩) ∧
    (∀ (r' : Resource) (ta' : Except IoError (RawTcpStream × SockAddr)),
      (TcpListener.poll_accept_std lw r' ta').2.2.attemptedSyscall = r'.readReady) ∧
    (∀ (r' : Resource) (ua' : Except IoError (Option (RawUnixStream × UnixSockAddr))),
      (UnixListener.poll_accept_std lw r' ua').2.2.attemptedSyscall = r'.readReady) := by
  refine ⟨?_, ?_, ?_, ?_⟩
  · simp [TcpListener.poll_accept_std, Resource.poll_read_ready, hnot]
  · simp [UnixListener.poll_accept_std, Resource.poll_read_ready, hnot]
  · intro r' ta'
    cases hr : r'.readReady with
    | false => simp [TcpListener.poll_accept_std, Resource.poll_read_ready, hr]
    | true =>
      cases ta' with
      | ok pair => simp [TcpListener.poll_accept_std, Resource.poll_read_ready, hr]
      | error e =>
        cases hwb : e.is_would_block with
        | true =>
          simp [TcpListener.poll_accept_std, Resource.poll_read_ready, hr, hwb]
        | false =>
          simp [TcpListener.poll_accept_std, Resource.poll_read_ready, hr, hwb]
  · intro r' ua'
    cases hr : r'.readReady with
    | false => simp [UnixListener.poll_accept_std, Resource.poll_read_ready, hr]
    | true =>
      cases ua' with
      | ok o =>
        cases o with
        | none => simp [UnixListener.poll_accept_std, Resource.poll_read_ready, hr]
        | some pair =>
          simp [UnixListener.poll_accept_std, Resource.poll_read_ready, hr]
      | error e =>
        cases hwb : e.is_would_block with
        | true =>
          simp [UnixListener.poll_accept_std, Resource.poll_read_ready, hr, hwb]
        | false =>
          simp [UnixListener.poll_accept_std, Resource.poll_read_ready, hr, hwb]

/-- Witness for C8: a not-ready cache returns `Pending` with the callback
stored and no syscall attempted. -/
theorem syscall_attempted_only_when_ready_witness :
    TcpListener.poll_accept_std 3 ⟨false, none, true, none⟩
      (Except.ok (⟨1⟩, ⟨0, 80⟩)) =
      (Poll.pending, ⟨false, some 3, true, none⟩, ⟨false, false⟩) :=
  (syscall_attempted_only_when_ready 3 ⟨false, none, true, none⟩
    (Except.ok (⟨1⟩, ⟨0, 80⟩)) (Except.ok none) rfl).1

/-- C9: `UnixListener::poll_accept_std` treats `Ok(None)` from `accept_std`
identically to a `WouldBlock` error — same resulting state, same effects,
same `Pending` result — and an `Ok(None)` never surfaces to the caller. -/
theorem accept_ok_none_treated_as_would_block (lw : Nat) (r : Resource)
    (e : IoError) (hwb : e.is_would_block = true) :
    UnixListener.poll_accept_std lw r (Except.ok none) =
      UnixListener.poll_accept_std lw r (Except.error e) ∧
    (UnixListener.poll_accept_std lw r (Except.ok none)).1 = Poll.pending := by
  cases hr : r.readReady with
  | false =>
    constructor <;>
      simp [UnixListener.poll_accept_std, Resource.poll_read_ready, hr]
  | true =>
    constructor <;>
      simp [UnixListener.poll_accept_std, Resource.poll_read_ready, hr, hwb]

/-- Witness for C9 at a concrete resource and would-block error. -/
theorem accept_ok_none_treated_as_would_block_witness :
    UnixListener.poll_accept_std 0 Resource.new (Except.ok none) =
      UnixListener.poll_accept_std 0 Resource.new
        (Except.error ⟨IoErrorKind.wouldBlock, 0⟩) :=
  (accept_ok_none_treated_as_would_block 0 Resource.new
    ⟨IoErrorKind.wouldBlock, 0⟩ rfl).1

/-- C10: if the accept syscall succeeds but `from_stream` conversion fails,
`TcpListener::poll_accept` returns `Ready(Err)` with the conversion error (the
accepted connection is dropped), and at the stream level `poll_next` yields
`Ready(Some(Err))` — an element of the sequence, not `None` and not a panic;
the resource state is unchanged, so the listener remains usable. -/
theorem conversion_failure_is_operation_error (lw : Nat) (r : Resource)
    (s : RawTcpStream) (a : SockAddr) (e : IoError)
    (fs : RawTcpStream → Except IoError MioTcpStream)
    (hready : r.readReady = true) (hfs : fs s = Except.error e) :
    TcpListener.poll_accept lw r (Except.ok (s, a)) fs =
      (Poll.ready (Except.error e), r, ⟨true, false⟩) ∧
    TcpListener.poll_next lw r (Except.ok (s, a)) fs =
      (Poll.ready (some (Except.error e)), r, ⟨true, false⟩) := by
  constructor <;>
    simp [TcpListener.poll_next, TcpListener.poll_accept,
      TcpListener.poll_accept_std, Resource.poll_read_ready, hready, hfs]

/-- Witness for C10: a concrete conversion failure surfaces as the error of
this single accept operation. -/
theorem conversion_failure_is_operation_error_witness :
    TcpListener.poll_next 0 Resource.new (Except.ok (⟨6⟩, ⟨1, 80⟩))
      (fun _ => Except.error ⟨IoErrorKind.other, 24⟩) =
      (Poll.ready (some (Except.error ⟨IoErrorKind.other, 24⟩)),
        Resource.new, ⟨true, false⟩) :=
  (conversion_failure_is_operation_error 0 Resource.new ⟨6⟩ ⟨1, 80⟩
    ⟨IoErrorKind.other, 24⟩ (fun _ => Except.error ⟨IoErrorKind.other, 24⟩)
    rfl rfl).2
